import Mathlib

/-!
Shallow embedding of `src/main.rs` of kusto-kmsg-extract: a pipeline that
reformats structured log entries (JSON inside a CSV cell) into single
human-readable lines, rewriting numeric fields to hexadecimal and decoding
three known register-dump sub-structures found inside string values.

Machine integers are modelled as `Nat`/`Int` with explicit `2 ^ 64` bounds
(Rust `u64`/`i64`); the regex rewriters are modelled as executable
left-to-right scanners that are faithful to the `regex` crate's
leftmost-first semantics for the concrete patterns used (in each pattern the
alternation branches are pairwise non-overlapping and every greedy repetition
is followed by a character disjoint from its class, so maximal munch with no
backtracking is exact). `\d` is modelled as ASCII `0`-`9`, the only digits
occurring in the data these rewriters are applied to.
-/

/-- `format!("{:x}", n)` for an unsigned value: lowercase hexadecimal digits,
no prefix. `Nat.toDigits 16 0 = ['0']`, matching Rust. -/
def toHex (n : Nat) : String :=
  (Nat.toDigits 16 n).asString

/-- Numeric value of a list of ASCII decimal digits (most significant first). -/
def digitsToNat (ds : List Char) : Nat :=
  ds.foldl (fun a c => 10 * a + (c.toNat - '0'.toNat)) 0

/-- Rust `str::parse::<u64>()` restricted to the alphabets that reach it here
(digits and spaces): succeeds exactly on a non-empty all-digit string whose
value fits in 64 bits; overflow, emptiness, or a non-digit character fail. -/
def parse_u64 (s : List Char) : Option Nat :=
  if s.isEmpty then none
  else if s.all Char.isDigit then
    let v := digitsToNat s
    if v < 2 ^ 64 then some v else none
  else none

/-- Rust `str::contains(needle)` on explicit character lists. -/
def listContainsSub (hay needle : List Char) : Bool :=
  needle.isPrefixOf hay ||
    match hay with
    | [] => false
    | _ :: t => listContainsSub t needle

/-- Rust `str::contains(needle)`. -/
def strContains (hay needle : String) : Bool :=
  listContainsSub hay.data needle.data

/-- Rust `str::trim()` for strings drawn from the digit/space/comma alphabet
that reaches it (captures of `[0-9, ]+` split at commas): strip spaces from
both ends. -/
def trimSpaces (s : List Char) : List Char :=
  ((s.dropWhile (· = ' ')).reverse.dropWhile (· = ' ')).reverse

/-- Rust `str::split(',')`: `n` commas yield `n + 1` pieces, empty pieces
included. -/
def splitOnComma : List Char → List (List Char)
  | [] => [[]]
  | c :: rest =>
    match splitOnComma rest with
    | [] => [[]]
    | grp :: gs => if c = ',' then [] :: grp :: gs else (c :: grp) :: gs

/-- Try each literal alternative in order; return the matched literal and the
rest of the input. The alternation sets used below are pairwise
non-prefix-free-overlapping (no literal is a prefix of another), so at most
one alternative can match at a given position. -/
def matchAlt (alts : List String) (cs : List Char) : Option (String × List Char) :=
  match alts with
  | [] => none
  | a :: rest =>
    if a.data.isPrefixOf cs then some (a, cs.drop a.length) else matchAlt rest cs

/-- The register-name alternation of Transformer A:
`rax|rcx|rdx|rsi|rdi|r\d+`. The literal branches require a letter after `r`
and the `r\d+` branch requires a digit, so the branches are disjoint. -/
def matchNameA (cs : List Char) : Option (String × List Char) :=
  match matchAlt ["rax", "rcx", "rdx", "rsi", "rdi"] cs with
  | some r => some r
  | none =>
    match cs with
    | 'r' :: rest =>
      let ds := rest.takeWhile Char.isDigit
      if ds.isEmpty then none
      else some ("r" ++ ds.asString, rest.drop ds.length)
    | _ => none

/-- One attempted match of a scalar-field pattern `(<names>): (\d+)` at the
head of the input, abstracted over the name alternation. On success, returns
the replacement text `format!("{}: 0x{:x}", name, digits.parse::<u64>().unwrap_or(0))`
together with the unconsumed rest. The digit run is maximal-munch, exact for
the pattern since `:` is not a digit. -/
def scalarStep (names : List Char → Option (String × List Char)) (cs : List Char) :
    Option (String × List Char) :=
  match names cs with
  | none => none
  | some (name, rest) =>
    match rest with
    | c1 :: c2 :: rest2 =>
      if c1 = ':' ∧ c2 = ' ' then
        let ds := rest2.takeWhile Char.isDigit
        if ds.isEmpty then none
        else some (name ++ ": 0x" ++ toHex ((parse_u64 ds).getD 0), rest2.drop ds.length)
      else none
    | _ => none

/-- `Regex::replace_all` driver: scan left to right; at each position attempt
`step`; on a match emit its replacement and resume after the match, otherwise
copy one character. Every successful step of the steps used below consumes at
least one character, so `fuel = length of the input` never runs out. -/
def replaceAllAux (step : List Char → Option (String × List Char)) :
    Nat → List Char → String
  | _, [] => ""
  | 0, cs => cs.asString
  | fuel + 1, c :: cs =>
    match step (c :: cs) with
    | some (repl, rest) => repl ++ replaceAllAux step fuel rest
    | none => c.toString ++ replaceAllAux step fuel cs

/-- `Regex::replace_all` over a string. -/
def replaceAll (step : List Char → Option (String × List Char)) (s : String) : String :=
  replaceAllAux step s.length s.data

/-- The per-match step of `transform_tdx_exit_info`
(`(rax|rcx|rdx|rsi|rdi|r\d+): (\d+)`). -/
def stepA : List Char → Option (String × List Char) :=
  scalarStep matchNameA

/-- `transform_tdx_exit_info`: rewrite every `<register>: <decimal>` match to
`<register>: 0x<hex>`; an unparsable decimal defaults to 0. -/
def transform_tdx_exit_info (text : String) : String :=
  replaceAll stepA text

/-- A character of the array-body class `[0-9, ]`. -/
def isArrChar (c : Char) : Bool :=
  c.isDigit || c = ',' || c = ' '

/-- The per-element rewrite of Transformer B's array pass: trim, parse as
`u64`; on success render `0x<hex>`, on failure keep the trimmed original. -/
def arrayElem (piece : List Char) : String :=
  match parse_u64 (trimSpaces piece) with
  | some n => "0x" ++ toHex n
  | none => (trimSpaces piece).asString

/-- The per-match step of Transformer B's array pass (`\[([0-9, ]+)\]`):
split the captured body at commas, rewrite each piece with `arrayElem`, and
rejoin with `", "` inside brackets. The body class excludes `]`, so maximal
munch up to the closing bracket is exact. -/
def arrayStepB (cs : List Char) : Option (String × List Char) :=
  match cs with
  | '[' :: rest =>
    let body := rest.takeWhile isArrChar
    if body.isEmpty then none
    else
      match rest.drop body.length with
      | ']' :: rest2 =>
        some ("[" ++ ", ".intercalate ((splitOnComma body).map arrayElem) ++ "]", rest2)
      | _ => none
  | _ => none

/-- The per-match step of Transformer B's scalar pass
(`(rflags|rip|ssp|rvi|svi): (\d+)`). -/
def stepBField : List Char → Option (String × List Char) :=
  scalarStep (matchAlt ["rflags", "rip", "ssp", "rvi", "svi"])

/-- `transform_tdx_guest_state`: first the array pass, then the scalar-field
pass over its result, mirroring the two sequential `replace_all` calls. -/
def transform_tdx_guest_state (text : String) : String :=
  replaceAll stepBField (replaceAll arrayStepB text)

/-- The per-match step of `transform_segment_register`
(`(base|limit|selector|attributes): (\d+)`). -/
def stepC : List Char → Option (String × List Char) :=
  scalarStep (matchAlt ["base", "limit", "selector", "attributes"])

/-- `transform_segment_register`: rewrite every `<field>: <decimal>` match to
`<field>: 0x<hex>`; an unparsable decimal defaults to 0. -/
def transform_segment_register (text : String) : String :=
  replaceAll stepC text

example : transform_tdx_exit_info "tdx_tdg_vp_enter_exit_info rax: 10, rcx: 255" =
    "tdx_tdg_vp_enter_exit_info rax: 0xa, rcx: 0xff" := by decide

example : transform_tdx_guest_state "TdxL2EnterGuestState regs=[10, 20, 30] rip: 16" =
    "TdxL2EnterGuestState regs=[0xa, 0x14, 0x1e] rip: 0x10" := by decide

example : transform_segment_register "SegmentRegister base: 8" =
    "SegmentRegister base: 0x8" := by decide

example : transform_tdx_exit_info "r12: 99999999999999999999999" = "r12: 0x0" := by decide

/-- A `serde_json` number, as stored: `PosInt` holds a `u64` (invariant
`n < 2 ^ 64`), `NegInt` holds a negative `i64` (invariant
`-2 ^ 63 ≤ n < 0`; serde_json only uses this variant for negative values),
`Float` is kept as its serialized text (its numeric value is never consulted
by this program, only displayed). -/
inductive JNumber where
  | posInt (n : Nat)
  | negInt (n : Int)
  | float (txt : String)

/-- Modelled from the spec: the tagged value tree produced by the external
JSON decoder (`serde_json::Value`). Per the spec's data model, an object is
an insertion-ordered sequence of key/value pairs, preserved through decode
and iteration. -/
inductive Json where
  | null
  | bool (b : Bool)
  | num (n : JNumber)
  | str (s : String)
  | arr (elems : List Json)
  | obj (entries : List (String × Json))

/-- `Value::is_number`. -/
def Json.is_number : Json → Bool
  | .num _ => true
  | _ => false

/-- `Value::as_u64`: `Some` exactly for a number stored as `u64`. -/
def Json.as_u64 : Json → Option Nat
  | .num (.posInt n) => some n
  | _ => none

/-- `Value::as_i64`: `Some` for a stored `i64`, or a stored `u64` that fits
in `i64`. -/
def Json.as_i64 : Json → Option Int
  | .num (.posInt n) => if n < 2 ^ 63 then some (n : Int) else none
  | .num (.negInt n) => some n
  | _ => none

/-- `Value::is_string`. -/
def Json.is_string : Json → Bool
  | .str _ => true
  | _ => false

/-- `Value::as_str`. -/
def Json.as_str : Json → Option String
  | .str s => some s
  | _ => none

/-- `Value::as_object` (the ordered map, as a pair list). -/
def Json.as_object : Json → Option (List (String × Json))
  | .obj entries => some entries
  | _ => none

/-- `serde_json::Map::get`: first (and, after a real decode, only) entry with
the given key. -/
def objGet (entries : List (String × Json)) (key : String) : Option Json :=
  (entries.find? (fun kv => kv.1 == key)).map (·.2)

/-- `Value::get(key)`: key lookup on an object, `None` on any other variant. -/
def Json.get (j : Json) (key : String) : Option Json :=
  match j with
  | .obj entries => objGet entries key
  | _ => none

/-- Concatenation of a list of strings (the total text a sequence of
`push_str` calls appends). -/
def concatStrs : List String → String
  | [] => ""
  | s :: rest => s ++ concatStrs rest

/-- Two lowercase hexadecimal digits (for `\u00XX` escapes). -/
def hexDigit2 (n : Nat) : String :=
  String.mk [Nat.digitChar (n / 16), Nat.digitChar (n % 16)]

/-- serde_json's string escaping, per character: `"` and `\` are
backslash-escaped, the control characters BS, FF, LF, CR, TAB use their short
escapes, any other control character uses `\u00XX`, everything else is
emitted as is. -/
def escapeChar (c : Char) : String :=
  if c = '"' then "\\\""
  else if c = '\\' then "\\\\"
  else if c.toNat = 8 then "\\b"
  else if c.toNat = 12 then "\\f"
  else if c = '\n' then "\\n"
  else if c = '\r' then "\\r"
  else if c = '\t' then "\\t"
  else if c.toNat < 32 then "\\u00" ++ hexDigit2 c.toNat
  else c.toString

/-- serde_json's rendering of a string: quoted, with each character escaped. -/
def renderString (s : String) : String :=
  "\"" ++ concatStrs (s.data.map escapeChar) ++ "\""

mutual

/-- `Display for serde_json::Value` (`format!("{}", v)`): compact JSON text. -/
def Json.render : Json → String
  | .null => "null"
  | .bool b => if b then "true" else "false"
  | .num (.posInt n) => toString n
  | .num (.negInt n) => toString n
  | .num (.float txt) => txt
  | .str s => renderString s
  | .arr elems => "[" ++ Json.renderList elems ++ "]"
  | .obj entries => "\x7b" ++ Json.renderObj entries ++ "\x7d"

/-- Comma-separated rendering of array elements. -/
def Json.renderList : List Json → String
  | [] => ""
  | [x] => Json.render x
  | x :: xs => Json.render x ++ "," ++ Json.renderList xs

/-- Comma-separated rendering of object entries as `"key":value`. -/
def Json.renderObj : List (String × Json) → String
  | [] => ""
  | [(k, v)] => renderString k ++ ":" ++ Json.render v
  | (k, v) :: kvs => renderString k ++ ":" ++ Json.render v ++ "," ++ Json.renderObj kvs

end

/-- `format!("{:x}", i)` on an `i64`: the 64-bit two's-complement bit pattern
in hexadecimal. -/
def i64HexBits (i : Int) : String :=
  toHex (i % (2 : Int) ^ 64).toNat

/-- `format_value_as_hex`: hex for a number representable as `u64`, else as
`i64` (bit pattern), else the default rendering; non-numbers render by
default. Total: every value maps to some fragment. -/
def format_value_as_hex (key : String) (value : Json) : String :=
  if value.is_number then
    match value.as_u64 with
    | some num => " " ++ key ++ "=0x" ++ toHex num
    | none =>
      match value.as_i64 with
      | some num => " " ++ key ++ "=0x" ++ i64HexBits num
      | none => " " ++ key ++ "=" ++ value.render
  else
    " " ++ key ++ "=" ++ value.render

/-- The fragment one iteration of the field loop appends for `(key, value)`:
the three special-case branches of `process_message` (lines 139-166), falling
through to `format_value_as_hex`. An outer branch whose key/type guard holds
but whose marker test fails falls through to the numeric formatter without
testing the later branches, exactly as the `if`/`else if` chain with inner
`continue` does. The `value.as_str().unwrap()` in the SegmentRegister guard
is modelled with the default `""`; it is unreachable since the guard requires
`is_string` (proved below). -/
def fieldFragment (key : String) (value : Json) : String :=
  if key == "raw_exit" && value.is_string then
    match value.as_str with
    | some raw_exit_str =>
      if strContains raw_exit_str "tdx_tdg_vp_enter_exit_info" then
        " " ++ key ++ "=\"" ++ transform_tdx_exit_info raw_exit_str ++ "\""
      else format_value_as_hex key value
    | none => format_value_as_hex key value
  else if key == "gprs" && value.is_string then
    match value.as_str with
    | some gprs_str =>
      if strContains gprs_str "TdxL2EnterGuestState" then
        " " ++ key ++ "=\"" ++ transform_tdx_guest_state gprs_str ++ "\""
      else format_value_as_hex key value
    | none => format_value_as_hex key value
  else if value.is_string && strContains (value.as_str.getD "") "SegmentRegister" then
    match value.as_str with
    | some str_val =>
      " " ++ key ++ "=\"" ++ transform_segment_register str_val ++ "\""
    | none => format_value_as_hex key value
  else
    format_value_as_hex key value

/-- The `for (key, value) in obj` loop (lines 134-170): entries with key
`message` are skipped (`continue`), every other entry appends its fragment,
in order. -/
def fieldsLoop : List (String × Json) → String
  | [] => ""
  | (k, v) :: rest =>
    if k == "message" then fieldsLoop rest
    else fieldFragment k v ++ fieldsLoop rest

/-- `process_message` (lines 92-173) after the external
`serde_json::from_str` call, whose result is the `parsed` argument (`none` =
decode error). Empty input returns the empty string; a decode error or a
missing/mistyped required key returns the input unchanged; otherwise the
bracketed header is built and, when `fields` is an object with a string
`message`, the per-field loop runs. -/
def process_decoded (message_field : String) (parsed : Option Json) : String :=
  if message_field.isEmpty then ""
  else
    match parsed with
    | none => message_field
    | some json =>
      match (json.get "timestamp").bind Json.as_str, (json.get "level").bind Json.as_str,
          (json.get "target").bind Json.as_str, json.get "fields" with
      | some ts, some lvl, some tgt, some flds =>
        let output := "[" ++ ts ++ "][" ++ lvl ++ "][" ++ tgt ++ "] " ++ flds.render
        match flds.as_object with
        | none => output
        | some obj =>
          match (objGet obj "message").bind Json.as_str with
          | none => output
          | some msg =>
            "[" ++ ts ++ "][" ++ lvl ++ "][" ++ tgt ++ "] " ++ msg ++ fieldsLoop obj
      | _, _, _, _ => message_field

/-- The record loop of `main` (lines 198-207), abstracted over the per-cell
decode function `dec` that stands for `serde_json::from_str`: each row's
`ExtractedMessage` cell (`none` when `record.get` finds no such field) is
processed, and the result is printed only when non-empty. Returns the list
of printed lines, in input order. -/
def mainLoop (dec : String → Option Json) : List (Option String) → List String
  | [] => []
  | cell :: rest =>
    match cell with
    | none => mainLoop dec rest
    | some c =>
      let out := process_decoded c (dec c)
      if out.isEmpty then mainLoop dec rest else out :: mainLoop dec rest

/-- C1: for every non-empty input string, if JSON decoding fails (`parsed =
none`), or any of `timestamp`, `level`, `target` is absent or not a string,
or `fields` is absent, `process_decoded` returns the input string unchanged;
being a total function, it never aborts. -/
theorem c1_raw_fallback (s : String) (r : Option Json) (hs : s ≠ "")
    (hbad : r = none ∨ ∃ j, r = some j ∧
      ((j.get "timestamp").bind Json.as_str = none ∨
       (j.get "level").bind Json.as_str = none ∨
       (j.get "target").bind Json.as_str = none ∨
       j.get "fields" = none)) :
    process_decoded s r = s := by
  have he : s.isEmpty = false := by
    cases h : s.isEmpty with
    | false => rfl
    | true => exact absurd ((String.isEmpty_iff s).mp h) hs
  rcases hbad with rfl | ⟨j, rfl, hj⟩
  · simp [process_decoded, he]
  · simp only [process_decoded, he]
    rw [if_neg (by simp)]
    split
    · rcases hj with h | h | h | h <;> simp_all
    · rfl

/-- Witness for C1 at a concrete undecodable input. -/
theorem c1_raw_fallback_witness : process_decoded "not json at all" none = "not json at all" :=
  c1_raw_fallback "not json at all" none (by decide) (Or.inl rfl)

/-- C2: the spec's worked example. The decoded value tree passed alongside
the raw cell text is the external JSON decode of that text, modelled from
the spec's data model (insertion-ordered object). -/
theorem c2_concrete_line :
    process_decoded
      "\x7b\"timestamp\":\"T\",\"level\":\"INFO\",\"target\":\"mod\",\"fields\":\x7b\"message\":\"hi\",\"count\":255\x7d\x7d"
      (some (Json.obj [("timestamp", Json.str "T"), ("level", Json.str "INFO"),
        ("target", Json.str "mod"),
        ("fields", Json.obj [("message", Json.str "hi"),
          ("count", Json.num (.posInt 255))])])) =
      "[T][INFO][mod] hi count=0xff" := by decide

/-- C6: the numeric formatter renders a negative 64-bit integer as the hex
encoding of its two's-complement bit pattern (the representative of `i`
modulo `2 ^ 64` in `[0, 2 ^ 64)`, that is `i + 2 ^ 64`), renders an unsigned
64-bit integer as its plain hex form, and in particular renders `-1` as
`0xffffffffffffffff`; it is a total function, so it never fails. -/
theorem c6_numeric_hex (key : String) :
    (∀ i : Int, -(2 ^ 63) ≤ i → i < 0 →
      format_value_as_hex key (Json.num (.negInt i)) =
        " " ++ key ++ "=0x" ++ toHex (i + 2 ^ 64).toNat) ∧
    (∀ n : Nat, n < 2 ^ 64 →
      format_value_as_hex key (Json.num (.posInt n)) = " " ++ key ++ "=0x" ++ toHex n) ∧
    format_value_as_hex key (Json.num (.negInt (-1))) =
      " " ++ key ++ "=0xffffffffffffffff" := by
  have hneg : ∀ i : Int, -(2 ^ 63) ≤ i → i < 0 →
      format_value_as_hex key (Json.num (.negInt i)) =
        " " ++ key ++ "=0x" ++ toHex (i + 2 ^ 64).toNat := by
    intro i h1 h2
    have hfm : format_value_as_hex key (Json.num (.negInt i)) =
        " " ++ key ++ "=0x" ++ i64HexBits i := by
      simp [format_value_as_hex, Json.is_number, Json.as_u64, Json.as_i64]
    rw [hfm]
    unfold i64HexBits
    have hle : ((2 : Int) ^ 63) ≤ 2 ^ 64 := by norm_num
    have h0 : (0 : Int) ≤ i + 2 ^ 64 := by linarith
    have hlt : i + 2 ^ 64 < 2 ^ 64 := by linarith
    have hshift : (i + 2 ^ 64) % (2 : Int) ^ 64 = i % 2 ^ 64 := by
      have h := Int.add_mul_emod_self_left (a := i) (b := (2 : Int) ^ 64) (c := 1)
      rw [mul_one] at h
      exact h
    have hmod : i % (2 : Int) ^ 64 = i + 2 ^ 64 := by
      rw [← hshift]; exact Int.emod_eq_of_lt h0 hlt
    rw [hmod]
  refine ⟨hneg, ?_, ?_⟩
  · intro n _
    simp [format_value_as_hex, Json.is_number, Json.as_u64]
  · have h1 : toHex ((-1 : Int) + 2 ^ 64).toNat = "ffffffffffffffff" := by decide
    have h2 : ("=0x" ++ "ffffffffffffffff" : String) = "=0xffffffffffffffff" := by decide
    rw [hneg (-1) (by norm_num) (by norm_num), h1, String.append_assoc, h2]

/-- Witness for C6 at `-1` and `255`. -/
theorem c6_numeric_hex_witness :
    format_value_as_hex "k" (Json.num (.negInt (-1))) =
      " " ++ "k" ++ "=0x" ++ toHex ((-1 : Int) + 2 ^ 64).toNat ∧
    format_value_as_hex "k" (Json.num (.posInt 255)) = " " ++ "k" ++ "=0x" ++ toHex 255 :=
  ⟨(c6_numeric_hex "k").1 (-1) (by norm_num) (by norm_num),
   (c6_numeric_hex "k").2.1 255 (by norm_num)⟩

/-- C9: the `unwrap_or(0)` branch of Transformer A is reachable for an
in-pattern input: `rax: 99999999999999999999999` matches the register
pattern, its numeral exceeds the unsigned 64-bit range, so `parse_u64` fails
and the numeral is rewritten to `0x0`. -/
theorem c9_zero_default_reachable :
    transform_tdx_exit_info "rax: 99999999999999999999999" = "rax: 0x0" ∧
    parse_u64 "99999999999999999999999".data = none ∧
    2 ^ 64 ≤ digitsToNat "99999999999999999999999".data :=
  ⟨by decide, by decide, by decide⟩

/-- C10: `as_str` is defined (returns `some`) on every value satisfying
`is_string`, so the `value.as_str().unwrap()` guarded by `value.is_string()`
in the SegmentRegister dispatch branch cannot panic. -/
theorem c10_as_str_total_on_strings (v : Json) (h : v.is_string = true) :
    (Json.as_str v).isSome = true := by
  cases v <;> simp_all [Json.is_string, Json.as_str]

/-- Witness for C10 at a concrete string value. -/
theorem c10_as_str_witness :
    (Json.as_str (Json.str "SegmentRegister base: 8")).isSome = true :=
  c10_as_str_total_on_strings _ rfl

/-- C3: per-field dispatch is mutually exclusive and keyed as the claim
states. Transformer A runs exactly when the key is `raw_exit`, the value is
a string, and it contains the tdx exit marker; Transformer B exactly when
the key is `gprs`, the value is a string, and it contains the guest-state
marker; Transformer C only for string values under any other key whose
content contains `SegmentRegister`; in every remaining case (including a
`raw_exit` or `gprs` string that misses its own marker) the numeric
formatter produces the fragment. -/
theorem c3_dispatch (key : String) (v : Json) :
    (∀ s, v = Json.str s → key = "raw_exit" →
      strContains s "tdx_tdg_vp_enter_exit_info" = true →
      fieldFragment key v = " " ++ key ++ "=\"" ++ transform_tdx_exit_info s ++ "\"") ∧
    (∀ s, v = Json.str s → key = "gprs" →
      strContains s "TdxL2EnterGuestState" = true →
      fieldFragment key v = " " ++ key ++ "=\"" ++ transform_tdx_guest_state s ++ "\"") ∧
    (∀ s, v = Json.str s → key ≠ "raw_exit" → key ≠ "gprs" →
      strContains s "SegmentRegister" = true →
      fieldFragment key v = " " ++ key ++ "=\"" ++ transform_segment_register s ++ "\"") ∧
    (v.is_string = false → fieldFragment key v = format_value_as_hex key v) ∧
    (∀ s, v = Json.str s →
      (key = "raw_exit" → strContains s "tdx_tdg_vp_enter_exit_info" = false) →
      (key = "gprs" → strContains s "TdxL2EnterGuestState" = false) →
      (key ≠ "raw_exit" → key ≠ "gprs" → strContains s "SegmentRegister" = false) →
      fieldFragment key v = format_value_as_hex key v) := by
  refine ⟨?_, ?_, ?_, ?_, ?_⟩
  · rintro s rfl rfl hm
    simp [fieldFragment, Json.is_string, Json.as_str, hm]
  · rintro s rfl rfl hm
    simp [fieldFragment, Json.is_string, Json.as_str, hm]
  · rintro s rfl hk1 hk2 hm
    simp [fieldFragment, Json.is_string, Json.as_str, hm, hk1, hk2]
  · intro hv
    cases v <;> simp_all [fieldFragment, Json.is_string]
  · rintro s rfl h1 h2 h3
    by_cases hk1 : key = "raw_exit"
    · subst hk1
      simp [fieldFragment, Json.is_string, Json.as_str, h1 rfl]
    · by_cases hk2 : key = "gprs"
      · subst hk2
        simp [fieldFragment, Json.is_string, Json.as_str, h2 rfl]
      · simp [fieldFragment, Json.is_string, Json.as_str, hk1, hk2, h3 hk1 hk2]

/-- Witness for C3: the tdx exit branch fires on its marker, and a
`raw_exit` string missing that marker falls to the numeric formatter even
though it contains `SegmentRegister`. -/
theorem c3_dispatch_witness :
    fieldFragment "raw_exit" (Json.str "tdx_tdg_vp_enter_exit_info rax: 10") =
      " " ++ "raw_exit" ++ "=\"" ++
        transform_tdx_exit_info "tdx_tdg_vp_enter_exit_info rax: 10" ++ "\"" ∧
    fieldFragment "raw_exit" (Json.str "SegmentRegister base: 8") =
      format_value_as_hex "raw_exit" (Json.str "SegmentRegister base: 8") :=
  ⟨(c3_dispatch "raw_exit" (Json.str "tdx_tdg_vp_enter_exit_info rax: 10")).1 _
      rfl rfl (by decide),
   (c3_dispatch "raw_exit" (Json.str "SegmentRegister base: 8")).2.2.2.2 _
      rfl (fun _ => by decide) (fun h => absurd h (by decide)) (fun h _ => absurd rfl h)⟩

/-- Every successful scalar-pattern match replaces its decimal capture with
`0x` followed by the hex of `parse.unwrap_or(0)`; in particular a failed
parse is rewritten with value 0. -/
theorem scalarStep_repl (names : List Char → Option (String × List Char))
    (cs : List Char) (repl : String) (rest : List Char)
    (h : scalarStep names cs = some (repl, rest)) :
    ∃ name ds, ds ≠ [] ∧ ds.all Char.isDigit = true ∧
      repl = name ++ ": 0x" ++ toHex ((parse_u64 ds).getD 0) ∧
      (parse_u64 ds = none → repl = name ++ ": 0x0") := by
  unfold scalarStep at h
  cases hn : names cs with
  | none => rw [hn] at h; exact nomatch h
  | some nr =>
    obtain ⟨name, rest1⟩ := nr
    rw [hn] at h
    rcases rest1 with _ | ⟨c1, _ | ⟨c2, rest2⟩⟩
    · exact nomatch h
    · exact nomatch h
    · replace h : (if c1 = ':' ∧ c2 = ' ' then
          (if (rest2.takeWhile Char.isDigit).isEmpty = true then none
           else some (name ++ ": 0x" ++ toHex ((parse_u64 (rest2.takeWhile Char.isDigit)).getD 0),
             rest2.drop (rest2.takeWhile Char.isDigit).length))
          else none) = some (repl, rest) := h
      split at h
      · split at h
        · exact nomatch h
        · rename_i hde
          simp only [Option.some.injEq, Prod.mk.injEq] at h
          obtain ⟨hrepl, -⟩ := h
          refine ⟨name, rest2.takeWhile Char.isDigit, ?_, List.all_takeWhile, hrepl.symm, ?_⟩
          · intro hnil
            exact hde (by rw [hnil]; rfl)
          · intro hp
            rw [← hrepl, hp]
            have ht : toHex ((none : Option Nat).getD 0) = "0" := by decide
            have hx : (": 0x" ++ "0" : String) = ": 0x0" := by decide
            rw [ht, String.append_assoc, hx]
      · exact nomatch h

/-- C4: in the scalar-field rewriters (Transformer A, Transformer B's scalar
pass, Transformer C) a matched decimal that fails unsigned 64-bit parsing is
rewritten with value 0 (`0x0`), whereas Transformer B's bracketed-array pass
leaves such an element as its original trimmed text. -/
theorem c4_zero_default_asymmetry :
    (∀ cs repl rest, stepA cs = some (repl, rest) →
      ∃ name ds, ds ≠ [] ∧ ds.all Char.isDigit = true ∧
        repl = name ++ ": 0x" ++ toHex ((parse_u64 ds).getD 0) ∧
        (parse_u64 ds = none → repl = name ++ ": 0x0")) ∧
    (∀ cs repl rest, stepBField cs = some (repl, rest) →
      ∃ name ds, ds ≠ [] ∧ ds.all Char.isDigit = true ∧
        repl = name ++ ": 0x" ++ toHex ((parse_u64 ds).getD 0) ∧
        (parse_u64 ds = none → repl = name ++ ": 0x0")) ∧
    (∀ cs repl rest, stepC cs = some (repl, rest) →
      ∃ name ds, ds ≠ [] ∧ ds.all Char.isDigit = true ∧
        repl = name ++ ": 0x" ++ toHex ((parse_u64 ds).getD 0) ∧
        (parse_u64 ds = none → repl = name ++ ": 0x0")) ∧
    (∀ piece, parse_u64 (trimSpaces piece) = none →
      arrayElem piece = (trimSpaces piece).asString) :=
  ⟨fun cs repl rest h => scalarStep_repl matchNameA cs repl rest h,
   fun cs repl rest h =>
     scalarStep_repl (matchAlt ["rflags", "rip", "ssp", "rvi", "svi"]) cs repl rest h,
   fun cs repl rest h =>
     scalarStep_repl (matchAlt ["base", "limit", "selector", "attributes"]) cs repl rest h,
   fun piece hp => by simp [arrayElem, hp]⟩

/-- Witness for C4: an overflowing register value is rewritten to `0x0` by
Transformer A's step, while an array element with an inner space keeps its
trimmed original text. -/
theorem c4_zero_default_asymmetry_witness :
    (∃ name ds, ds ≠ [] ∧ ds.all Char.isDigit = true ∧
      "rax: 0x0" = name ++ ": 0x" ++ toHex ((parse_u64 ds).getD 0) ∧
      (parse_u64 ds = none → "rax: 0x0" = name ++ ": 0x0")) ∧
    arrayElem (" 1 2 ".data) = (trimSpaces (" 1 2 ".data)).asString :=
  ⟨c4_zero_default_asymmetry.1 ("rax: 18446744073709551616".data) "rax: 0x0" [] (by decide),
   c4_zero_default_asymmetry.2.2.2 (" 1 2 ".data) (by decide)⟩

/-- C5: when all four required keys decode and `fields` is an object without
a string-valued `message` key, the output is exactly the bracketed header
followed by the default JSON rendering of the whole `fields` object: no
per-field iteration and no hex transformation of the top-level fields. -/
theorem c5_default_render (s ts lvl tgt : String) (j : Json)
    (kvs : List (String × Json)) (hs : s ≠ "")
    (hts : (j.get "timestamp").bind Json.as_str = some ts)
    (hlv : (j.get "level").bind Json.as_str = some lvl)
    (htg : (j.get "target").bind Json.as_str = some tgt)
    (hfl : j.get "fields" = some (Json.obj kvs))
    (hmsg : (objGet kvs "message").bind Json.as_str = none) :
    process_decoded s (some j) =
      "[" ++ ts ++ "][" ++ lvl ++ "][" ++ tgt ++ "] " ++ (Json.obj kvs).render := by
  have he : s.isEmpty = false := by
    cases h : s.isEmpty with
    | false => rfl
    | true => exact absurd ((String.isEmpty_iff s).mp h) hs
  simp [process_decoded, he, hts, hlv, htg, hfl, Json.as_object, hmsg]

/-- Witness for C5 at a concrete entry whose `fields` lacks `message`. -/
theorem c5_default_render_witness :
    process_decoded "x" (some (Json.obj [("timestamp", Json.str "T"),
      ("level", Json.str "L"), ("target", Json.str "t"),
      ("fields", Json.obj [("count", Json.num (.posInt 255))])])) =
      "[" ++ "T" ++ "][" ++ "L" ++ "][" ++ "t" ++ "] " ++
        (Json.obj [("count", Json.num (.posInt 255))]).render :=
  c5_default_render "x" "T" "L" "t" _ _ (by decide) rfl rfl rfl rfl rfl

/-- A string with a non-empty left part stays non-empty under append. -/
theorem append_left_isEmpty_false (a b : String) (h : a.isEmpty = false) :
    (a ++ b).isEmpty = false := by
  cases hab : (a ++ b).isEmpty with
  | false => rfl
  | true =>
    have he : a ++ b = "" := (String.isEmpty_iff _).mp hab
    have hd := congrArg String.data he
    rw [String.data_append] at hd
    have hz : ("" : String).data = [] := rfl
    rw [hz] at hd
    have hA : a.data = [] := (List.append_eq_nil.mp hd).1
    have ha : a = "" := by
      cases a with
      | mk d => simp only [] at hA; rw [hA]
    rw [ha] at h
    exact absurd h (by decide)

/-- The output of `process_decoded` is empty exactly when the input cell is
empty: every fallback path returns the (non-empty) input and every formatted
path starts with the bracketed header. -/
theorem process_decoded_empty_iff (c : String) (r : Option Json) :
    (process_decoded c r).isEmpty = c.isEmpty := by
  cases hc : c.isEmpty with
  | true =>
    have : c = "" := (String.isEmpty_iff c).mp hc
    subst this
    rfl
  | false =>
    rcases r with _ | j
    · simp [process_decoded, hc]
    · simp only [process_decoded, hc]
      rw [if_neg (by simp)]
      split
    
      · split
        · repeat apply append_left_isEmpty_false
          decide
        · split
          · repeat apply append_left_isEmpty_false
            decide
          · repeat apply append_left_isEmpty_false
            decide
      · exact hc

/-- The field loop concatenates, in order, exactly one fragment per entry
whose key is not `message`. -/
theorem fieldsLoop_concat (kvs : List (String × Json)) :
    fieldsLoop kvs =
      concatStrs ((kvs.filter (fun kv => !(kv.1 == "message"))).map
        (fun kv => fieldFragment kv.1 kv.2)) := by
  induction kvs with
  | nil => rfl
  | cons kv rest ih =>
    obtain ⟨k, v⟩ := kv
    cases hk : (k == "message") with
    | true => simp [fieldsLoop, hk, List.filter_cons, ih]
    | false => simp [fieldsLoop, hk, List.filter_cons, concatStrs, ih]

/-- Every fragment of the numeric formatter starts with a single space. -/
theorem format_value_space (key : String) (v : Json) :
    ∃ t, format_value_as_hex key v = " " ++ t := by
  by_cases hn : v.is_number = true
  · cases hu : v.as_u64 with
    | some n =>
      exact ⟨key ++ "=0x" ++ toHex n,
        by simp [format_value_as_hex, hn, hu, String.append_assoc]⟩
    | none =>
      cases hi : v.as_i64 with
      | some i =>
        exact ⟨key ++ "=0x" ++ i64HexBits i,
          by simp [format_value_as_hex, hn, hu, hi, String.append_assoc]⟩
      | none =>
        exact ⟨key ++ "=" ++ v.render,
          by simp [format_value_as_hex, hn, hu, hi, String.append_assoc]⟩
  · exact ⟨key ++ "=" ++ v.render,
      by simp [format_value_as_hex, hn, String.append_assoc]⟩

/-- Every fragment appended by the field loop starts with a single space. -/
theorem fieldFragment_space (key : String) (v : Json) :
    ∃ t, fieldFragment key v = " " ++ t := by
  cases hv : v.as_str with
  | none =>
    have hns : v.is_string = false := by
      cases v <;> simp_all [Json.as_str, Json.is_string]
    have heq : fieldFragment key v = format_value_as_hex key v := by
      simp [fieldFragment, hns]
    rw [heq]
    exact format_value_space key v
  | some s =>
    have hv' : v = Json.str s := by
      cases v <;> simp_all [Json.as_str]
    subst hv'
    by_cases h1 : key = "raw_exit"
    · subst h1
      cases hm : strContains s "tdx_tdg_vp_enter_exit_info" with
      | true =>
        refine ⟨"raw_exit" ++ "=\"" ++ transform_tdx_exit_info s ++ "\"", ?_⟩
        simp [fieldFragment, Json.is_string, Json.as_str, hm, String.append_assoc]
        rw [(by decide : (" raw_exit=\"" : String) = " " ++ "raw_exit=\""),
          String.append_assoc]
      | false =>
        have heq : fieldFragment "raw_exit" (Json.str s) =
            format_value_as_hex "raw_exit" (Json.str s) := by
          simp [fieldFragment, Json.is_string, Json.as_str, hm]
        rw [heq]
        exact format_value_space _ _
    · by_cases h2 : key = "gprs"
      · subst h2
        cases hm : strContains s "TdxL2EnterGuestState" with
        | true =>
          refine ⟨"gprs" ++ "=\"" ++ transform_tdx_guest_state s ++ "\"", ?_⟩
          simp [fieldFragment, Json.is_string, Json.as_str, hm, String.append_assoc]
          rw [(by decide : (" gprs=\"" : String) = " " ++ "gprs=\""),
            String.append_assoc]
        | false =>
          have heq : fieldFragment "gprs" (Json.str s) =
              format_value_as_hex "gprs" (Json.str s) := by
            simp [fieldFragment, Json.is_string, Json.as_str, hm]
          rw [heq]
          exact format_value_space _ _
      · cases hm : strContains s "SegmentRegister" with
        | true =>
          exact ⟨key ++ "=\"" ++ transform_segment_register s ++ "\"",
            by simp [fieldFragment, Json.is_string, Json.as_str, h1, h2, hm,
              String.append_assoc]⟩
        | false =>
          have heq : fieldFragment key (Json.str s) =
              format_value_as_hex key (Json.str s) := by
            simp [fieldFragment, Json.is_string, Json.as_str, h1, h2, hm]
          rw [heq]
          exact format_value_space _ _

/-- C8: when `fields` is an object with a string-valued `message` key, the
message is extracted once as the primary message and excluded from the
per-field loop, every other entry contributes exactly one fragment, in the
object's stored (insertion) order, and every fragment is prefixed by one
space. -/
theorem c8_field_iteration (s ts lvl tgt msg : String) (j : Json)
    (kvs : List (String × Json)) (hs : s ≠ "")
    (hts : (j.get "timestamp").bind Json.as_str = some ts)
    (hlv : (j.get "level").bind Json.as_str = some lvl)
    (htg : (j.get "target").bind Json.as_str = some tgt)
    (hfl : j.get "fields" = some (Json.obj kvs))
    (hmsg : (objGet kvs "message").bind Json.as_str = some msg) :
    process_decoded s (some j) =
      "[" ++ ts ++ "][" ++ lvl ++ "][" ++ tgt ++ "] " ++ msg ++
        concatStrs ((kvs.filter (fun kv => !(kv.1 == "message"))).map
          (fun kv => fieldFragment kv.1 kv.2)) ∧
    (∀ key v, ∃ t, fieldFragment key v = " " ++ t) := by
  constructor
  · have he : s.isEmpty = false := by
      cases h : s.isEmpty with
      | false => rfl
      | true => exact absurd ((String.isEmpty_iff s).mp h) hs
    simp [process_decoded, he, hts, hlv, htg, hfl, Json.as_object, hmsg, fieldsLoop_concat]
  · exact fieldFragment_space

/-- Witness for C8: the `message` entry in the middle of `fields` is
extracted and skipped; the other entries contribute fragments in order. -/
theorem c8_field_iteration_witness :
    process_decoded "x" (some (Json.obj [("timestamp", Json.str "T"),
      ("level", Json.str "L"), ("target", Json.str "t"),
      ("fields", Json.obj [("b", Json.num (.posInt 1)), ("message", Json.str "m"),
        ("a", Json.num (.posInt 2))])])) =
      "[" ++ "T" ++ "][" ++ "L" ++ "][" ++ "t" ++ "] " ++ "m" ++
        concatStrs (([("b", Json.num (.posInt 1)), ("message", Json.str "m"),
          ("a", Json.num (.posInt 2))].filter (fun kv => !(kv.1 == "message"))).map
          (fun kv => fieldFragment kv.1 kv.2)) :=
  (c8_field_iteration "x" "T" "L" "t" "m"
    (Json.obj [("timestamp", Json.str "T"), ("level", Json.str "L"),
      ("target", Json.str "t"),
      ("fields", Json.obj [("b", Json.num (.posInt 1)), ("message", Json.str "m"),
        ("a", Json.num (.posInt 2))])])
    [("b", Json.num (.posInt 1)), ("message", Json.str "m"), ("a", Json.num (.posInt 2))]
    (by decide) rfl rfl rfl rfl rfl).1

/-- The printed-line count: every row whose cell is present and empty is
suppressed, every other row prints one line. -/
theorem mainLoop_length (dec : String → Option Json) :
    ∀ rows : List (Option String), (∀ cell ∈ rows, cell ≠ none) →
      (mainLoop dec rows).length =
        rows.length - (rows.filter (fun cell => cell == some "")).length := by
  intro rows
  induction rows with
  | nil => intro _; rfl
  | cons cell rest ih =>
    intro hall
    have hrest : ∀ x ∈ rest, x ≠ none := fun x hx => hall x (List.mem_cons_of_mem _ hx)
    have hlen : (rest.filter (fun cell => cell == some "")).length ≤ rest.length :=
      List.length_filter_le _ _
    obtain ⟨c, rfl⟩ : ∃ c, cell = some c := by
      cases cell with
      | none => exact absurd rfl (hall none (List.mem_cons_self _ _))
      | some c => exact ⟨c, rfl⟩
    by_cases hc : c = ""
    · subst hc
      have hpe : (process_decoded "" (dec "")).isEmpty = true := by
        rw [process_decoded_empty_iff]; rfl
      simp [mainLoop, hpe, ih hrest, List.filter_cons]
    · have hpe : (process_decoded c (dec c)).isEmpty = false := by
        rw [process_decoded_empty_iff]
        cases hcc : c.isEmpty with
        | false => rfl
        | true => exact absurd ((String.isEmpty_iff c).mp hcc) hc
      simp [mainLoop, hpe, ih hrest, List.filter_cons, hc]
      omega

/-- C7: a present-but-empty `ExtractedMessage` cell is suppressed (no output
line) and never an error; a non-empty cell prints exactly one line; hence,
when every row has its cell, the number of printed lines equals the number
of rows minus the number of rows with an empty cell. -/
theorem c7_row_suppression (dec : String → Option Json)
    (rows : List (Option String)) (hall : ∀ cell ∈ rows, cell ≠ none) :
    mainLoop dec (some "" :: rows) = mainLoop dec rows ∧
    (∀ c, c ≠ "" → mainLoop dec (some c :: rows) =
      process_decoded c (dec c) :: mainLoop dec rows) ∧
    (mainLoop dec rows).length =
      rows.length - (rows.filter (fun cell => cell == some "")).length := by
  refine ⟨?_, ?_, mainLoop_length dec rows hall⟩
  · have hpe : (process_decoded "" (dec "")).isEmpty = true := by
      rw [process_decoded_empty_iff]; rfl
    simp [mainLoop, hpe]
  · intro c hc
    have hpe : (process_decoded c (dec c)).isEmpty = false := by
      rw [process_decoded_empty_iff]
      cases hcc : c.isEmpty with
      | false => rfl
      | true => exact absurd ((String.isEmpty_iff c).mp hcc) hc
    simp [mainLoop, hpe]

/-- Witness for C7 at three rows, one of them empty. -/
theorem c7_row_suppression_witness :
    (mainLoop (fun _ => none) [some "", some "a", some "b"]).length =
      [some "", some "a", some "b"].length -
        (([some "", some "a", some "b"] : List (Option String)).filter
          (fun cell => cell == some "")).length :=
  (c7_row_suppression (fun _ => none) [some "", some "a", some "b"] (by decide)).2.2
